import Mathlib

/-! Shallow embedding of the cpgame event scheduler and input router
(src/cpgame.py).  Timestamps are rationals.  Python dicts are modelled as
insertion-ordered association lists: assignment to a present key replaces
its value in place, a new key is appended at the end.  Handlers are
identified by natural numbers; the effect a handler has when invoked is
given by a behaviour function mapping its identifier to the list of
framework calls it performs.  Dict iteration follows CPython semantics:
the iterator faults with a RuntimeError as soon as the dictionary holds a
different number of entries than it did when the iterator was created
(CPython checks di_used against ma_used on every next() call, before the
exhaustion check).  Python-level exceptions are modelled with Except;
mutations of module globals that precede a raised exception are dropped,
since no property below reads state after a fault. -/

namespace Cpgame

/-- Python-level faults the embedded code can raise. -/
inductive PyErr
  | runtimeError   -- dictionary changed size during iteration
  | attributeError -- attribute access on None (GAMEPADSHIFT.get_pressed)
  | nameError      -- read of an unbound local (dio in on())
  | valueError     -- min() of an empty sequence
deriving DecidableEq

/-- A logical button identifier, by the classification `on` performs on it:
a value of the GAMEPAD namedtuple (`gp bits`), a pin matching DIGITAL_RE
(`dig n`), a pin matching ANALOG_RE / touch (`tch n`), or anything else
(`unk n`).  The regex classification itself operates on board pin names and
is out of scope; the constructors record its outcome. -/
inductive Button
  | gp (bits : Nat)
  | dig (n : Nat)
  | tch (n : Nat)
  | unk (n : Nat)
deriving DecidableEq

/-- The GAMEPAD namedtuple values (A, B, START, SELECT, X, Y, Z, R). -/
def GAMEPAD : List Nat := [2, 1, 4, 8, 16, 32, 64, 128]

/-- `button in GAMEPAD` in the source. -/
def isGamepadButton : Button → Bool
  | .gp b => GAMEPAD.contains b
  | _ => false

/-- `button in DIGITALIO` in the source. -/
def isDigitalButton : Button → Bool
  | .dig _ => true
  | _ => false

/-- `button in TOUCHIO` in the source. -/
def isTouchButton : Button → Bool
  | .tch _ => true
  | _ => false

/-- External constant DOWN = 1. -/
def DOWN : Nat := 1

/-- External constant UP = 2. -/
def UP : Nat := 2

/-- The module-level mutable state of cpgame: RUNNING, INTERVALS (handler ↦
(interval, last_called)), TIMERS (handler ↦ target), BUTTONS, DIOS (each
driver recorded by the pin it was constructed on), PRESSES, whether
GAMEPADSHIFT has been allocated, and the warnings printed for unknown
buttons. -/
structure CpState where
  running : Bool
  intervals : List (Nat × ℚ × ℚ)
  timers : List (Nat × ℚ)
  buttons : List Button
  dios : List Button
  presses : List (Nat × List Button × Nat)
  gamepadshift : Bool
  warnings : List Button
deriving DecidableEq

/-- The state right after module import: RUNNING = True, all registries
empty, GAMEPADSHIFT = None. -/
def initState : CpState :=
  { running := true, intervals := [], timers := [], buttons := [], dios := []
    presses := [], gamepadshift := false, warnings := [] }

/-- Python dict assignment `d[k] = v` on an insertion-ordered assoc list:
replace in place if the key is present, else append. -/
def dictSet {α : Type} : List (Nat × α) → Nat → α → List (Nat × α)
  | [], k, v => [(k, v)]
  | (k', v') :: rest, k, v =>
      if k' = k then (k, v) :: rest else (k', v') :: dictSet rest k v

/-- Python `d.pop(k, None)` / `del d[k]`: drop the entry with key `k`
(keys are unique, so dropping the first occurrence suffices). -/
def dictRemove {α : Type} : List (Nat × α) → Nat → List (Nat × α)
  | [], _ => []
  | (k', v') :: rest, k =>
      if k' = k then rest else (k', v') :: dictRemove rest k

/-- `every(interval)(fn)`: INTERVALS[fn] = (interval, 0). -/
def every (interval : ℚ) (fn : Nat) (s : CpState) : CpState :=
  { s with intervals := dictSet s.intervals fn (interval, 0) }

/-- `tick(fn)`: INTERVALS[fn] = (0, 0). -/
def tick (fn : Nat) (s : CpState) : CpState :=
  { s with intervals := dictSet s.intervals fn (0, 0) }

/-- `at(target, fn)`: TIMERS[fn] = target. -/
def at' (target : ℚ) (fn : Nat) (s : CpState) : CpState :=
  { s with timers := dictSet s.timers fn target }

/-- `after(target, fn)`: TIMERS[fn] = time.monotonic() + target, with the
current time passed explicitly. -/
def after (now delay : ℚ) (fn : Nat) (s : CpState) : CpState :=
  at' (now + delay) fn s

/-- `stop()`: RUNNING = False.  Nothing else ever reads this flag. -/
def stop (s : CpState) : CpState :=
  { s with running := false }

/-- The PRESSES part of `cancel`: pop the first binding whose handler is
`fn`, then break. -/
def removeFirstPress (fn : Nat) :
    List (Nat × List Button × Nat) → List (Nat × List Button × Nat)
  | [] => []
  | p :: rest => if p.1 = fn then rest else p :: removeFirstPress fn rest

/-- `cancel(fn)`: pop from INTERVALS and TIMERS, and remove the first
matching press binding. -/
def cancel (fn : Nat) (s : CpState) : CpState :=
  { s with intervals := dictRemove s.intervals fn
           timers := dictRemove s.timers fn
           presses := removeFirstPress fn s.presses }

/-- The `for button in buttons` loop of `on`.  `dio` is the function-local
variable of the same name, None while still unbound.  A gamepad button
allocates the shift-register driver and `continue`s before the appends; a
digital or touch button binds `dio` to a fresh driver on its own pin; an
unknown button prints a warning and leaves `dio` as it was, so the
following `DIOS.append(dio)` either faults (dio unbound) or silently
appends the previous button's driver. -/
def onLoop : CpState → Option Button → List Button → Except PyErr CpState
  | s, _, [] => .ok s
  | s, dio, b :: rest =>
      if b ∈ s.buttons then onLoop s dio rest
      else if isGamepadButton b then
        onLoop { s with gamepadshift := true } dio rest
      else
        let known := isDigitalButton b || isTouchButton b
        let dio' := if known then some b else dio
        let s' := if known then s else { s with warnings := s.warnings ++ [b] }
        match dio' with
        | none => .error .nameError
        | some d =>
            onLoop { s' with buttons := s'.buttons ++ [b]
                             dios := s'.dios ++ [d] } dio' rest

/-- `on(*buttons, fn=fn, action=action)` with the wrapper applied: run the
button set-up loop, then append (fn, buttons, action) to PRESSES. -/
def on' (buttons : List Button) (fn action : Nat) (s : CpState) :
    Except PyErr CpState :=
  (onLoop s none buttons).map fun s' =>
    { s' with presses := s'.presses ++ [(fn, buttons, action)] }

/-- The framework calls a handler may perform when invoked.  `poll` is the
body of Gamepad.__call__ as seen by the scheduler: it reads GAMEPADSHIFT
and faults when that is still None; its input-routing work on success is
modelled separately by `pollStep` and touches no scheduler state. -/
inductive Action
  | every (interval : ℚ) (fn : Nat)
  | tick (fn : Nat)
  | at' (target : ℚ) (fn : Nat)
  | after (delay : ℚ) (fn : Nat)
  | cancel (fn : Nat)
  | stop
  | poll
deriving DecidableEq

/-- Interpret one framework call made by a running handler. -/
def applyAction (now : ℚ) (s : CpState) : Action → Except PyErr CpState
  | .every i fn => .ok (every i fn s)
  | .tick fn => .ok (tick fn s)
  | .at' t fn => .ok (at' t fn s)
  | .after d fn => .ok (after now d fn s)
  | .cancel fn => .ok (cancel fn s)
  | .stop => .ok (stop s)
  | .poll => if s.gamepadshift then .ok s else .error .attributeError

/-- Run a handler body: its framework calls in order, stopping at the
first fault. -/
def applyActions (now : ℚ) : List Action → CpState → Except PyErr CpState
  | [], s => .ok s
  | a :: rest, s =>
      match applyAction now s a with
      | .error e => .error e
      | .ok s' => applyActions now rest s'

/-- The periodic fire pass, `for fn, (interval, last_called) in
INTERVALS.items(): ...` in `start`.  `n0` is the dict's size when the
iterator was created; the index list enumerates the iterator positions
(`List.range n0` plus the final next() that would raise StopIteration,
handled by the `[]` case).  Every next() call first faults with
RuntimeError if the dict's size has changed.  A due handler is invoked and
then `INTERVALS[fn] = (interval, now)` re-anchors its last_called.  The
returned trace lists the (handler, time) invocations in order. -/
def fireIntervalsAux (beh : Nat → List Action) (now : ℚ) (n0 : Nat) :
    List Nat → CpState → Except PyErr (CpState × List (Nat × ℚ))
  | [], s =>
      if s.intervals.length = n0 then .ok (s, []) else .error .runtimeError
  | i :: rest, s =>
      if s.intervals.length = n0 then
        match s.intervals[i]? with
        | none => .ok (s, [])
        | some (fn, interval, last_called) =>
            if last_called + interval ≤ now then
              match applyActions now (beh fn) s with
              | .error e => .error e
              | .ok s1 =>
                  match fireIntervalsAux beh now n0 rest
                      { s1 with intervals := dictSet s1.intervals fn (interval, now) } with
                  | .error e => .error e
                  | .ok (s', tr) => .ok (s', (fn, now) :: tr)
            else fireIntervalsAux beh now n0 rest s
      else .error .runtimeError

/-- The periodic fire pass started on the live INTERVALS dict. -/
def fireIntervals (beh : Nat → List Action) (now : ℚ) (s : CpState) :
    Except PyErr (CpState × List (Nat × ℚ)) :=
  fireIntervalsAux beh now s.intervals.length (List.range s.intervals.length) s

/-- The one-shot fire pass, `for fn, target in TIMERS.items(): ...` in
`start`: a due timer is deleted from TIMERS before its handler is invoked.
Same live-dict iteration discipline as `fireIntervalsAux`. -/
def fireTimersAux (beh : Nat → List Action) (now : ℚ) (n0 : Nat) :
    List Nat → CpState → Except PyErr (CpState × List (Nat × ℚ))
  | [], s =>
      if s.timers.length = n0 then .ok (s, []) else .error .runtimeError
  | i :: rest, s =>
      if s.timers.length = n0 then
        match s.timers[i]? with
        | none => .ok (s, [])
        | some (fn, target) =>
            if target ≤ now then
              match applyActions now (beh fn)
                  { s with timers := dictRemove s.timers fn } with
              | .error e => .error e
              | .ok s1 =>
                  match fireTimersAux beh now n0 rest s1 with
                  | .error e => .error e
                  | .ok (s', tr) => .ok (s', (fn, now) :: tr)
            else fireTimersAux beh now n0 rest s
      else .error .runtimeError

/-- The one-shot fire pass started on the live TIMERS dict. -/
def fireTimers (beh : Nat → List Action) (now : ℚ) (s : CpState) :
    Except PyErr (CpState × List (Nat × ℚ)) :=
  fireTimersAux beh now s.timers.length (List.range s.timers.length) s

/-- One complete fire pass of a loop iteration: the periodic pass, then
the one-shot pass, traces concatenated. -/
def firePass (beh : Nat → List Action) (now : ℚ) (s : CpState) :
    Except PyErr (CpState × List (Nat × ℚ)) :=
  match fireIntervals beh now s with
  | .error e => .error e
  | .ok (s1, tr1) =>
      match fireTimers beh now s1 with
      | .error e => .error e
      | .ok (s2, tr2) => .ok (s2, tr1 ++ tr2)

/-- Python `min` over a list: leftmost-seeded fold; None models the
ValueError raised on an empty sequence. -/
def pyMin : List ℚ → Option ℚ
  | [] => none
  | x :: xs => some (xs.foldl min x)

/-- `next_target` as computed in `start`: the comprehension unpacks
INTERVALS.values() — which stores (interval, last_called) — into the names
(last_called, interval), so it sums interval + last_called in that
order; the sum is the same either way. -/
def next_target (s : CpState) : Option ℚ :=
  pyMin ((s.intervals.map fun e => e.2.1 + e.2.2) ++ s.timers.map fun e => e.2)

/-- The wake times as the spec words them: last_fired + interval for each
periodic task, target for each one-shot. -/
def wakeTimesSpec (s : CpState) : List ℚ :=
  (s.intervals.map fun e => e.2.2 + e.2.1) ++ s.timers.map fun e => e.2

/-- One iteration of `start`'s `while True` loop: the no-functions check
(which returns), the fire pass, and the next_target computation (min of an
empty sequence raises ValueError).  Sleeping changes no state; the caller
supplies the monotonic time of each iteration.  `none` is the early
return, `some` carries the new state and the invocation trace.  Note the
loop condition never consults RUNNING. -/
def loopIter (beh : Nat → List Action) (now : ℚ) (s : CpState) :
    Except PyErr (Option (CpState × List (Nat × ℚ))) :=
  if s.timers = [] ∧ s.intervals = [] then .ok none
  else
    match firePass beh now s with
    | .error e => .error e
    | .ok (s1, tr) =>
        match next_target s1 with
        | none => .error .valueError
        | some _ => .ok (some (s1, tr))

/-- Run `start`'s loop for the given stream of monotonic clock readings
(one per iteration).  Result: final state, concatenated invocation trace,
and whether the loop returned through the no-functions-registered path
(false when the clock stream ran out with the loop still going). -/
def runLoop (beh : Nat → List Action) :
    List ℚ → CpState → Except PyErr (CpState × List (Nat × ℚ) × Bool)
  | [], s => .ok (s, [], false)
  | now :: rest, s =>
      match loopIter beh now s with
      | .error e => .error e
      | .ok none => .ok (s, [], true)
      | .ok (some (s1, tr)) =>
          match runLoop beh rest s1 with
          | .error e => .error e
          | .ok (s2, tr2, b) => .ok (s2, tr ++ tr2, b)

/-- The registrations `start(fn)` performs before entering its loop:
`every(0.02)(Gamepad())` — the input poll, handler id 0 — and, when an
initial handler is given, `at(0, fn)`. -/
def startRegister (fn : Option Nat) (s : CpState) : CpState :=
  match fn with
  | some f => at' 0 f (every (1/50) 0 s)
  | none => every (1/50) 0 s

/-- The match test of the dispatch loop in Gamepad.__call__: action DOWN
with every combo button freshly down, or action UP with every combo button
freshly up. -/
def isMatch (fd fu : List Button) (p : Nat × List Button × Nat) : Bool :=
  (p.2.2 = DOWN && p.2.1.all fun b => b ∈ fd) ||
  (p.2.2 = UP && p.2.1.all fun b => b ∈ fu)

/-- The dispatch loop of Gamepad.__call__: bindings in registration order;
a non-matching binding yields the PROPOGATE sentinel implicitly; a
matching one is invoked, and the pass breaks unless the handler returned
PROPOGATE.  `prop fn` tells whether handler `fn` returns the sentinel.
The result lists the handlers invoked, in order. -/
def dispatch (prop : Nat → Bool) (fd fu : List Button) :
    List (Nat × List Button × Nat) → List Nat
  | [] => []
  | p :: rest =>
      if isMatch fd fu p then
        if prop p.1 then p.1 :: dispatch prop fd fu rest else [p.1]
      else dispatch prop fd fu rest

/-- The instance state of the Gamepad object: self.down (last recorded raw
down list) and self.pressed (confirmed pressed list). -/
structure GpState where
  down : List Button
  pressed : List Button
deriving DecidableEq

/-- One successful Gamepad.__call__ poll, with `read` standing for the
freshly computed `down` list (discrete/touch reads in BUTTONS order
followed by the decoded gamepad bits).  A read that differs from the
recorded self.down is treated as a transient: it is recorded and the poll
returns without edge detection.  Otherwise fresh_down/fresh_up are
computed against self.pressed, self.pressed is updated (extend, then
remove each fresh_up once), and — when a transition exists — the bindings
are dispatched.  Returns the new instance state and the invoked handlers. -/
def pollStep (prop : Nat → Bool) (presses : List (Nat × List Button × Nat))
    (read : List Button) (s : GpState) : GpState × List Nat :=
  if read ≠ s.down then ({ down := read, pressed := s.pressed }, [])
  else
    let fd := read.filter fun b => b ∉ s.pressed
    let fu := s.pressed.filter fun b => b ∉ read
    let pressed' := fu.foldl (fun l b => l.erase b) (s.pressed ++ fd)
    if fd = [] ∧ fu = [] then ({ down := s.down, pressed := pressed' }, [])
    else ({ down := s.down, pressed := pressed' }, dispatch prop fd fu presses)

deriving instance DecidableEq for Except

/-- A handler behaviour that performs no framework calls. -/
def nilBeh : Nat → List Action := fun _ => []

/-- A handler behaviour where every handler calls stop(). -/
def stopBeh : Nat → List Action := fun _ => [Action.stop]

/-- The behaviour under which handler 0 is the Gamepad poll registered by
start() and every other handler does nothing. -/
def pollBeh : Nat → List Action := fun n => if n = 0 then [Action.poll] else []

/-- A behaviour where handler 1 registers a brand-new periodic task
(handler 2, interval 5) when invoked. -/
def spawnBeh : Nat → List Action := fun n => if n = 1 then [Action.every 5 2] else []

/-- The shape of the dispatch loop's control flow on the list of matching
handlers: keep invoking while handlers return the PROPOGATE sentinel,
include the first one that does not, then break. -/
def consume (prop : Nat → Bool) : List Nat → List Nat
  | [] => []
  | fn :: rest => if prop fn then fn :: consume prop rest else [fn]

/-- Well-formedness of the two task registries as Python dicts: each
handler key occurs at most once within each dict. -/
def registryKeysNodup (s : CpState) : Prop :=
  (s.intervals.map Prod.fst).Nodup ∧ (s.timers.map Prod.fst).Nodup

/-- Dict assignment always leaves the assigned entry in the dict. -/
theorem dictSet_mem_self {α : Type} :
    ∀ (l : List (Nat × α)) (k : Nat) (v : α), (k, v) ∈ dictSet l k v := by
  intro l
  induction l with
  | nil => intro k v; simp [dictSet]
  | cons p rest ih =>
      intro k v
      obtain ⟨k', v'⟩ := p
      simp only [dictSet]
      split
      · exact List.mem_cons_self _ _
      · exact List.mem_cons_of_mem _ (ih k v)

/-- Dict assignment replaces in place or appends: the key sequence is
unchanged when the key was present, and gains the key at the end
otherwise. -/
theorem dictSet_keys {α : Type} :
    ∀ (l : List (Nat × α)) (k : Nat) (v : α),
      (dictSet l k v).map Prod.fst =
        if k ∈ l.map Prod.fst then l.map Prod.fst
        else l.map Prod.fst ++ [k] := by
  intro l
  induction l with
  | nil => intro k v; simp [dictSet]
  | cons p rest ih =>
      intro k v
      obtain ⟨k', v'⟩ := p
      simp only [dictSet]
      split
      · next hk => subst hk; simp
      · next hk =>
          have hk' : ¬(k = k') := fun h => hk h.symm
          by_cases hm : k ∈ rest.map Prod.fst <;>
            simp [ih, hm, hk', List.mem_cons]

/-- Dict assignment preserves key uniqueness. -/
theorem dictSet_keys_nodup {α : Type} (l : List (Nat × α)) (k : Nat) (v : α)
    (h : (l.map Prod.fst).Nodup) : ((dictSet l k v).map Prod.fst).Nodup := by
  rw [dictSet_keys]
  split
  · exact h
  · next hk =>
      refine List.Nodup.append h (List.nodup_singleton k) ?_
      intro a ha hb
      rw [List.mem_singleton] at hb
      subst hb
      exact hk ha

/-- Dict deletion returns a sublist of the original entry list. -/
theorem dictRemove_sublist {α : Type} :
    ∀ (l : List (Nat × α)) (k : Nat), List.Sublist (dictRemove l k) l := by
  intro l k
  induction l with
  | nil => simp [dictRemove]
  | cons p rest ih =>
      obtain ⟨k', v'⟩ := p
      simp only [dictRemove]
      split
      · exact List.sublist_cons_self _ _
      · exact ih.cons₂ _

/-- Dict deletion preserves key uniqueness. -/
theorem dictRemove_keys_nodup {α : Type} (l : List (Nat × α)) (k : Nat)
    (h : (l.map Prod.fst).Nodup) : ((dictRemove l k).map Prod.fst).Nodup :=
  ((dictRemove_sublist l k).map Prod.fst).nodup h

/-- A completed periodic fire pass has passed the changed-size check at
every iterator step, the final one included, so the periodic registry ends
the pass with exactly the entry count the iterator started with. -/
theorem fireIntervalsAux_ok_length (beh : Nat → List Action) (now : ℚ) (n0 : Nat) :
    ∀ (idx : List Nat) (s s' : CpState) (tr : List (Nat × ℚ)),
      fireIntervalsAux beh now n0 idx s = .ok (s', tr) →
      s'.intervals.length = n0 := by
  intro idx
  induction idx with
  | nil =>
      intro s s' tr h
      simp only [fireIntervalsAux] at h
      split at h
      · next hlen => cases h; exact hlen
      · simp at h
  | cons i rest ih =>
      intro s s' tr h
      simp only [fireIntervalsAux] at h
      split at h
      · next hlen =>
          split at h
          · cases h; exact hlen
          · split at h
            · split at h
              · simp at h
              · split at h
                · simp at h
                · next heqrec => cases h; exact ih _ _ _ heqrec
            · exact ih _ _ _ h
      · simp at h

/-- Same size bookkeeping for the one-shot fire pass. -/
theorem fireTimersAux_ok_length (beh : Nat → List Action) (now : ℚ) (n0 : Nat) :
    ∀ (idx : List Nat) (s s' : CpState) (tr : List (Nat × ℚ)),
      fireTimersAux beh now n0 idx s = .ok (s', tr) →
      s'.timers.length = n0 := by
  intro idx
  induction idx with
  | nil =>
      intro s s' tr h
      simp only [fireTimersAux] at h
      split at h
      · next hlen => cases h; exact hlen
      · simp at h
  | cons i rest ih =>
      intro s s' tr h
      simp only [fireTimersAux] at h
      split at h
      · next hlen =>
          split at h
          · cases h; exact hlen
          · split at h
            · split at h
              · simp at h
              · split at h
                · simp at h
                · next heqrec => cases h; exact ih _ _ _ heqrec
            · exact ih _ _ _ h
      · simp at h

/-- The button set-up loop of `on` touches GAMEPADSHIFT only for buttons
classified as gamepad buttons. -/
theorem onLoop_gamepadshift :
    ∀ (bs : List Button) (s : CpState) (dio : Option Button) (s' : CpState),
      (∀ b ∈ bs, isGamepadButton b = false) → onLoop s dio bs = .ok s' →
      s'.gamepadshift = s.gamepadshift := by
  intro bs
  induction bs with
  | nil =>
      intro s dio s' _ h
      simp only [onLoop] at h
      cases h
      rfl
  | cons b rest ih =>
      intro s dio s' hgp h
      have hb : isGamepadButton b = false := hgp b (List.mem_cons_self _ _)
      have hrest : ∀ x ∈ rest, isGamepadButton x = false :=
        fun x hx => hgp x (List.mem_cons_of_mem _ hx)
      simp only [onLoop, hb] at h
      split at h
      · exact ih _ _ _ hrest h
      · simp only [Bool.false_eq_true, if_false] at h
        split at h
        · simp at h
        · have := ih _ _ _ hrest h
          rw [this]
          split <;> rfl

/-- Python min over a nonempty list is a member of the list. -/
theorem foldl_min_mem : ∀ (xs : List ℚ) (x : ℚ), xs.foldl min x ∈ x :: xs := by
  intro xs
  induction xs with
  | nil => intro x; simp
  | cons y ys ih =>
      intro x
      simp only [List.foldl_cons]
      rcases List.mem_cons.mp (ih (min x y)) with h | h
      · rcases min_choice x y with hc | hc <;> rw [h, hc] <;> simp
      · simp [h]

/-- Python min over a list is a lower bound of the seed. -/
theorem foldl_min_le_init : ∀ (xs : List ℚ) (x : ℚ), xs.foldl min x ≤ x := by
  intro xs
  induction xs with
  | nil => intro x; simp
  | cons y ys ih =>
      intro x
      simp only [List.foldl_cons]
      exact le_trans (ih (min x y)) (min_le_left x y)

/-- Python min over a list is a lower bound of every element. -/
theorem foldl_min_le_mem :
    ∀ (xs : List ℚ) (x t : ℚ), t ∈ xs → xs.foldl min x ≤ t := by
  intro xs
  induction xs with
  | nil => intro x t h; cases h
  | cons y ys ih =>
      intro x t h
      simp only [List.foldl_cons]
      rcases List.mem_cons.mp h with rfl | h
      · exact le_trans (foldl_min_le_init ys (min x t)) (min_le_right x t)
      · exact ih (min x y) t h

/-- The dispatch control flow runs at most one non-propagating handler. -/
theorem consume_nonprop_le_one (prop : Nat → Bool) :
    ∀ l : List Nat, ((consume prop l).filter fun fn => !(prop fn)).length ≤ 1 := by
  intro l
  induction l with
  | nil => simp [consume]
  | cons fn rest ih =>
      by_cases h : prop fn
      · simpa [consume, h] using ih
      · simp [consume, h]

/-- C1: stop() does not stop the event loop.  A single periodic task
(handler 1, interval 1) whose handler calls stop() fires at t = 1 and sets
RUNNING := false, yet the loop runs a further full iteration and fires the
handler again at t = 2: start's while-True loop never consults the RUNNING
flag, contradicting the module docstring's promise that stop() stops the
main event loop. -/
theorem stop_flag_never_consulted_by_loop :
    runLoop stopBeh [1, 2] { initState with intervals := [(1, 1, 0)] } =
      .ok ({ initState with intervals := [(1, 1, 2)], running := false },
        [(1, 1), (1, 2)], false) := by
  norm_num [runLoop, loopIter, firePass, fireIntervals, fireTimers, fireIntervalsAux,
    fireTimersAux, applyActions, applyAction, stop, every, dictSet, dictRemove,
    next_target, pyMin, initState, stopBeh]

/-- C2 (counterexample): the fire pass does not iterate over a stable
snapshot.  A due handler that registers a brand-new periodic task during
the periodic pass changes the dict's size, and the pass faults with a
RuntimeError at its next iterator step instead of completing. -/
theorem fire_pass_faults_on_mid_pass_registration :
    firePass spawnBeh 1 { initState with intervals := [(1, 1, 0)] } =
      .error .runtimeError := by
  norm_num [firePass, fireIntervals, fireTimers, fireIntervalsAux, fireTimersAux,
    applyActions, applyAction, every, dictSet, initState, spawnBeh]

/-- C2 (amended): the fire pass iterates the live registries under the
interpreter's changed-size check, so a pass that completes without fault
has passed that check at every step: the registry it iterates holds
exactly as many entries at pass end as at pass start; a handler that adds
or removes entries of that registry without restoring its size makes the
pass fault instead. -/
theorem fire_pass_ok_preserves_registry_size (beh : Nat → List Action) (now : ℚ)
    (s s' : CpState) (tr : List (Nat × ℚ)) :
    (fireIntervals beh now s = .ok (s', tr) →
      s'.intervals.length = s.intervals.length) ∧
    (fireTimers beh now s = .ok (s', tr) →
      s'.timers.length = s.timers.length) :=
  ⟨fun h => fireIntervalsAux_ok_length beh now _ _ _ _ _ h,
   fun h => fireTimersAux_ok_length beh now _ _ _ _ _ h⟩

/-- C2 (witness): both fire passes complete on a state with one due
periodic task (no-op handler) and one not-yet-due timer, preserving each
registry's size. -/
theorem fire_pass_size_witness :
    ({ initState with intervals := [(1, 1, 1)], timers := [(2, 5)] } : CpState).intervals.length =
      ({ initState with intervals := [(1, 1, 0)], timers := [(2, 5)] } : CpState).intervals.length ∧
    ({ initState with intervals := [(1, 1, 0)], timers := [(2, 5)] } : CpState).timers.length =
      ({ initState with intervals := [(1, 1, 0)], timers := [(2, 5)] } : CpState).timers.length :=
  ⟨(fire_pass_ok_preserves_registry_size nilBeh 1 _ _ [(1, 1)]).1
      (by norm_num [fireIntervals, fireIntervalsAux, applyActions, dictSet, initState, nilBeh]),
   (fire_pass_ok_preserves_registry_size nilBeh 1 _ _ []).2
      (by norm_num [fireTimers, fireTimersAux, applyActions, dictSet, initState, nilBeh])⟩

/-- C3 (counterexample): starting the loop with zero registered tasks and
no initial handler does not return immediately: start() registers the
input-poll task first, so the no-functions check fails, and the first poll
raises AttributeError (GAMEPADSHIFT is None since no gamepad button was
ever bound). -/
theorem start_empty_raises_attribute_error :
    runLoop pollBeh [1] (startRegister none initState) = .error .attributeError := by
  norm_num [runLoop, loopIter, firePass, fireIntervals, fireTimers, fireIntervalsAux,
    fireTimersAux, applyActions, applyAction, every, dictSet, startRegister,
    initState, pollBeh]

/-- C3 (amended): start() always registers the input poll as a periodic
task (interval 0.02, last_called 0) before entering the loop, so even with
zero user tasks and no initial handler the registries are non-empty and
the loop proceeds rather than returning; once the poll is due it raises
AttributeError because no gamepad binding ever allocated GAMEPADSHIFT. -/
theorem start_always_registers_poll_then_faults (beh : Nat → List Action)
    (h0 : beh 0 = [Action.poll]) (now : ℚ) (hn : 1 / 50 ≤ now) :
    (startRegister none initState).intervals = [(0, 1 / 50, 0)] ∧
    runLoop beh [now] (startRegister none initState) = .error .attributeError := by
  constructor
  · rfl
  · have hn' : (50 : ℚ)⁻¹ ≤ now := by rwa [one_div] at hn
    simp [runLoop, loopIter, firePass, fireIntervals, fireTimers, fireIntervalsAux,
      fireTimersAux, applyActions, applyAction, h0, hn', startRegister, every,
      dictSet, initState, zero_add]

/-- C3 (witness): the amended behaviour at the concrete behaviour map
where handler 0 is the poll and at time 1. -/
theorem start_poll_fault_witness :
    (startRegister none initState).intervals = [(0, 1 / 50, 0)] ∧
    runLoop pollBeh [1] (startRegister none initState) = .error .attributeError :=
  start_always_registers_poll_then_faults pollBeh rfl 1 (by norm_num)

/-- C4: while no gamepad button has ever been referenced by a binding,
GAMEPADSHIFT stays None: a binding over non-gamepad buttons leaves it
untouched, start() always registers the poll task (handler 0, interval
0.02), and invoking the poll in such a state raises AttributeError. -/
theorem poll_faults_while_no_gamepad_binding
    (s : CpState) (hs : s.gamepadshift = false)
    (bs : List Button) (hb : ∀ b ∈ bs, isGamepadButton b = false)
    (fn act : Nat) (now : ℚ) :
    (∀ s', on' bs fn act s = .ok s' → s'.gamepadshift = false) ∧
    (0, (1 / 50 : ℚ), (0 : ℚ)) ∈ (startRegister none s).intervals ∧
    applyAction now s .poll = .error .attributeError := by
  refine ⟨?_, ?_, ?_⟩
  · intro s' h
    cases heq : onLoop s none bs with
    | error e => simp [on', heq, Except.map] at h
    | ok s'' =>
        have hgp := onLoop_gamepadshift bs s none s'' hb heq
        simp only [on', heq, Except.map, Except.ok.injEq] at h
        subst h
        simpa [hgp] using hs
  · exact dictSet_mem_self s.intervals 0 (1 / 50, 0)
  · simp [applyAction, hs]

/-- C4 (witness): the three facts at a concrete state and binding. -/
theorem poll_fault_witness :
    ({ initState with
        buttons := [Button.dig 1]
        dios := [Button.dig 1]
        presses := [(3, [Button.dig 1], 1)] } : CpState).gamepadshift = false ∧
    (0, (1 / 50 : ℚ), (0 : ℚ)) ∈ (startRegister none initState).intervals ∧
    applyAction 0 initState .poll = .error .attributeError :=
  ⟨(poll_faults_while_no_gamepad_binding initState rfl [Button.dig 1]
      (by decide) 3 1 0).1 _ (by decide),
   (poll_faults_while_no_gamepad_binding initState rfl [Button.dig 1]
      (by decide) 3 1 0).2⟩

/-- C5 (counterexample): registering handler 1 as periodic (every, interval
1) and then as a one-shot (at, target 5) leaves it present in both
registries at once: neither registration removes the handler from the
other set. -/
theorem periodic_then_oneshot_in_both :
    (at' 5 1 (every 1 1 initState)).intervals = [(1, 1, 0)] ∧
    (at' 5 1 (every 1 1 initState)).timers = [(1, 5)] := by decide

/-- C5 (amended): within each individual registry a handler appears at
most once and re-registration overwrites its entry in place (the key
sequence is unchanged when the handler was present, extended by it
otherwise); but the periodic and one-shot registries are independent —
neither every()/tick() nor at()/after() removes the handler from the
other registry — so a handler registered as periodic and then as a
one-shot (or vice versa) is present in both registries at once. -/
theorem registration_overwrites_within_each_registry (s : CpState)
    (h : registryKeysNodup s) (fn : Nat) (iv t d now : ℚ) :
    registryKeysNodup (every iv fn s) ∧ registryKeysNodup (tick fn s) ∧
    registryKeysNodup (at' t fn s) ∧ registryKeysNodup (after now d fn s) ∧
    (every iv fn s).intervals.map Prod.fst =
      (if fn ∈ s.intervals.map Prod.fst then s.intervals.map Prod.fst
       else s.intervals.map Prod.fst ++ [fn]) ∧
    (at' t fn s).timers.map Prod.fst =
      (if fn ∈ s.timers.map Prod.fst then s.timers.map Prod.fst
       else s.timers.map Prod.fst ++ [fn]) ∧
    (fn ∈ (at' t fn (every iv fn s)).intervals.map Prod.fst ∧
      fn ∈ (at' t fn (every iv fn s)).timers.map Prod.fst) ∧
    (fn ∈ (every iv fn (at' t fn s)).intervals.map Prod.fst ∧
      fn ∈ (every iv fn (at' t fn s)).timers.map Prod.fst) := by
  obtain ⟨hi, ht⟩ := h
  refine ⟨⟨dictSet_keys_nodup _ _ _ hi, ht⟩, ⟨dictSet_keys_nodup _ _ _ hi, ht⟩,
    ⟨hi, dictSet_keys_nodup _ _ _ ht⟩, ⟨hi, dictSet_keys_nodup _ _ _ ht⟩,
    dictSet_keys _ _ _, dictSet_keys _ _ _, ⟨?_, ?_⟩, ⟨?_, ?_⟩⟩ <;>
    exact List.mem_map_of_mem Prod.fst (dictSet_mem_self _ _ _)

/-- C5 (witness): the amended statement applied at the empty initial
state. -/
theorem registration_overwrite_witness :
    registryKeysNodup (every 1 1 initState) :=
  (registration_overwrites_within_each_registry initState
    ⟨List.nodup_nil, List.nodup_nil⟩ 1 1 5 2 0).1

/-- C6 (counterexample): on() with an empty button tuple is not rejected:
the binding is appended to PRESSES, and its empty combo matches a
dispatch (all() over an empty tuple is True). -/
theorem empty_combo_added_and_matching :
    on' [] 7 DOWN initState = .ok { initState with presses := [(7, [], DOWN)] } ∧
    isMatch [Button.dig 1] [] (7, [], DOWN) = true := by decide

/-- C6 (amended): registering a binding with an empty button set is
accepted: the binding is appended to the binding list unchanged, and
because the match test universally quantifies over the combo, an empty
combo matches on every dispatch pass whose action field matches. -/
theorem empty_combo_registers_and_matches (s : CpState) (fn act : Nat)
    (fd fu : List Button) :
    on' [] fn act s = .ok { s with presses := s.presses ++ [(fn, [], act)] } ∧
    isMatch fd fu (fn, [], DOWN) = true ∧ isMatch fd fu (fn, [], UP) = true :=
  ⟨rfl, rfl, rfl⟩

/-- C7: an unrecognized button identifier is not handled non-fatally.  As
the first new button of a call, the warning is printed and then
DIOS.append(dio) raises NameError, because the local dio was never bound;
preceded by a recognized button in the same call, the unknown button is
silently given that button's driver (so it does contribute to
pressed-state reads), and the binding registers. -/
theorem unknown_button_raises_or_reuses_driver :
    on' [Button.unk 0] 3 DOWN initState = .error .nameError ∧
    on' [Button.dig 1, Button.unk 0] 3 DOWN initState =
      .ok { initState with
            buttons := [Button.dig 1, Button.unk 0]
            dios := [Button.dig 1, Button.dig 1]
            presses := [(3, [Button.dig 1, Button.unk 0], DOWN)]
            warnings := [Button.unk 0] } := by decide

/-- C8: dispatch evaluates bindings in registration order; the handlers
invoked are exactly the matching bindings up to and including the first
whose handler does not return the PROPOGATE sentinel (non-matching
bindings propagate implicitly and never halt the pass), so at most one
non-propagating handler runs per poll. -/
theorem dispatch_in_order_until_first_consumer (prop : Nat → Bool)
    (fd fu : List Button) (presses : List (Nat × List Button × Nat)) :
    dispatch prop fd fu presses =
      consume prop ((presses.filter (isMatch fd fu)).map fun p => p.1) ∧
    ((dispatch prop fd fu presses).filter fun fn => !(prop fn)).length ≤ 1 := by
  have heq : ∀ ps : List (Nat × List Button × Nat),
      dispatch prop fd fu ps =
        consume prop ((ps.filter (isMatch fd fu)).map fun p => p.1) := by
    intro ps
    induction ps with
    | nil => rfl
    | cons p rest ih =>
        by_cases hm : isMatch fd fu p
        · by_cases hp : prop p.1 <;> simp [dispatch, consume, hm, hp, ih]
        · simp [dispatch, hm, ih]
  exact ⟨heq presses, by rw [heq presses]; exact consume_nonprop_le_one prop _⟩

/-- C9: a raw read that differs from the down list recorded on the
previous poll is only recorded, producing no transition and dispatching
nothing — so a flip-and-revert noisy read leaves the confirmed pressed set
untouched across both polls — and, in general, edge detection and
dispatch happen only on a poll whose fresh read equals the recorded
down list. -/
theorem debounce_requires_two_agreeing_polls (prop : Nat → Bool)
    (presses : List (Nat × List Button × Nat)) (s : GpState)
    (r x : List Button) (hd : s.down = r) (hx : x ≠ r) :
    pollStep prop presses x s = ({ down := x, pressed := s.pressed }, []) ∧
    pollStep prop presses r { down := x, pressed := s.pressed } =
      ({ down := r, pressed := s.pressed }, []) ∧
    (∀ (t : GpState) (read : List Button), read ≠ t.down →
      pollStep prop presses read t = ({ down := read, pressed := t.pressed }, [])) := by
  have hgen : ∀ (t : GpState) (read : List Button), read ≠ t.down →
      pollStep prop presses read t = ({ down := read, pressed := t.pressed }, []) := by
    intro t read hne
    simp [pollStep, hne]
  refine ⟨?_, hgen _ r (fun h => hx h.symm), hgen⟩
  have := hgen s x (by rw [hd]; exact hx)
  simpa using this

/-- C9 (witness): a noisy poll (read flips to empty and reverts) at a
concrete state with one recorded down button. -/
theorem debounce_witness :
    pollStep (fun _ => false) [] [] { down := [Button.dig 1], pressed := [] } =
      ({ down := [], pressed := [] }, []) ∧
    pollStep (fun _ => false) [] [Button.dig 1] { down := [], pressed := [] } =
      ({ down := [Button.dig 1], pressed := [] }, []) :=
  ⟨(debounce_requires_two_agreeing_polls (fun _ => false) []
      { down := [Button.dig 1], pressed := [] } [Button.dig 1] []
      rfl (by decide)).1,
   (debounce_requires_two_agreeing_polls (fun _ => false) []
      { down := [Button.dig 1], pressed := [] } [Button.dig 1] []
      rfl (by decide)).2.1⟩

/-- C10: for a non-empty collection of registered tasks, the loop's
next_target is the minimum over all periodic tasks of last_called +
interval and over all one-shot tasks of their target (the source's
swapped tuple unpacking is harmless since addition commutes). -/
theorem next_target_is_min_of_wake_times (s : CpState)
    (h : s.intervals ≠ [] ∨ s.timers ≠ []) :
    ∃ q, next_target s = some q ∧ q ∈ wakeTimesSpec s ∧
      ∀ t ∈ wakeTimesSpec s, q ≤ t := by
  have hlist : (s.intervals.map fun e => e.2.1 + e.2.2) ++ s.timers.map (fun e => e.2) =
      wakeTimesSpec s := by
    unfold wakeTimesSpec
    congr 1
    exact List.map_congr_left fun e _ => add_comm _ _
  have hne : wakeTimesSpec s ≠ [] := by
    unfold wakeTimesSpec
    cases h with
    | inl h => simp [h]
    | inr h => simp [h]
  obtain ⟨x, xs, hxx⟩ := List.exists_cons_of_ne_nil hne
  refine ⟨xs.foldl min x, ?_, ?_, ?_⟩
  · unfold next_target pyMin
    rw [hlist, hxx]
  · rw [hxx]
    exact foldl_min_mem xs x
  · rw [hxx]
    intro t ht
    rcases List.mem_cons.mp ht with rfl | h'
    · exact foldl_min_le_init xs t
    · exact foldl_min_le_mem xs x t h'

/-- C10 (witness): the minimum property at a concrete registry holding one
periodic task and one timer. -/
theorem next_target_witness :
    ∃ q, next_target { initState with intervals := [(1, 2, 3)], timers := [(2, 7)] } = some q ∧
      q ∈ wakeTimesSpec { initState with intervals := [(1, 2, 3)], timers := [(2, 7)] } ∧
      ∀ t ∈ wakeTimesSpec { initState with intervals := [(1, 2, 3)], timers := [(2, 7)] }, q ≤ t :=
  next_target_is_min_of_wake_times _ (Or.inl (by decide))

end Cpgame
